import Mathlib

/-!
Verification of the NAV ingestion and indicator engine of `src/scraper.py`
(Public Mutual Fund Intelligence System).

The Python code is shallowly embedded: dates become naturals (only their
ordering and equality matter, and ISO date strings compare lexicographically
in date order), numeric values become exact rationals, Python `None` becomes
`Option.none`, and code that can raise becomes `Except`.  Python's stable
ascending `sorted` is modelled by `List.insertionSort`, which is also a
stable ascending sort and therefore produces the same list.  Python's
`round(x, n)` is modelled by rounding `x * 10^n` to the nearest integer;
the half-way tie direction (Python rounds half to even on floats) is not
observable in any statement below.
-/

namespace Scraper

deriving instance DecidableEq for Except

/-- Floor of a rational, computed directly on its numerator and denominator. -/
def ratFloor (q : ℚ) : ℤ := Int.fdiv q.num (q.den : ℤ)

/-- The integer nearest to `q` (halves rounding up), computed directly on the
numerator and denominator: `⌊q + 1/2⌋ = ⌊(2 num + den) / (2 den)⌋`. -/
def roundq (q : ℚ) : ℤ := Int.fdiv (2 * q.num + (q.den : ℤ)) (2 * (q.den : ℤ))

/-- Rounding to 2 decimal places, as in Python `round(x, 2)`. -/
def round2 (q : ℚ) : ℚ := ((roundq (q * 100) : ℤ) : ℚ) / 100

/-- Rounding to 4 decimal places, as in Python `round(x, 4)`. -/
def round4 (q : ℚ) : ℚ := ((roundq (q * 10000) : ℤ) : ℚ) / 10000

/-- One NAV observation: a `{date, nav}` record from `nav_history`. -/
structure Obs where
  date : ℕ
  nav : ℚ
deriving DecidableEq, Repr

/-- Ordering of observations by date, used by `sorted(nav_history, key=lambda x: x['date'])`. -/
def dateLE (a b : Obs) : Prop := a.date ≤ b.date

instance : DecidableRel dateLE := fun a b => Nat.decLe a.date b.date

instance : IsTotal Obs dateLE := ⟨fun a b => Nat.le_total a.date b.date⟩

instance : IsTrans Obs dateLE := ⟨fun _ _ _ h1 h2 => Nat.le_trans h1 h2⟩

/-! ## The series store: dict-based merge of `run_daily_pipeline` (lines 355-364)

The Python code builds `existing = {r["date"]: r["nav"] for r in history}`,
overwrites `existing[record["date"]] = record["nav"]` for each fetched
record, and emits `sorted(existing.items())`.  A Python dict is modelled
extensionally as its key set together with its value function; the final
`sorted(existing.items())` only depends on that data. -/

/-- Extensional model of the Python dict mapping dates to NAVs. -/
structure NavDict where
  keys : Finset ℕ
  val : ℕ → ℚ

/-- The empty dict. -/
def emptyDict : NavDict := ⟨∅, fun _ => 0⟩

/-- `existing[d] = v`: insert or overwrite. -/
def dictInsert (m : NavDict) (d : ℕ) (v : ℚ) : NavDict :=
  ⟨insert d m.keys, fun k => if k = d then v else m.val k⟩

/-- Fold a batch of observations into a dict, in order (later entries overwrite). -/
def foldIns (m : NavDict) (B : List Obs) : NavDict :=
  B.foldl (fun m o => dictInsert m o.date o.nav) m

/-- The dict comprehension `{r["date"]: r["nav"] for r in S}`. -/
def dictOfList (S : List Obs) : NavDict := foldIns emptyDict S

/-- `sorted(existing.items())`, rebuilt as a list of observations. -/
def dictItems (m : NavDict) : List Obs :=
  (m.keys.sort (· ≤ ·)).map (fun d => Obs.mk d (m.val d))

/-- The merge step of `run_daily_pipeline`: `if nav_data:` guards the whole
block, so an empty batch leaves the stored series untouched. -/
def mergeNav (S B : List Obs) : List Obs :=
  if B.isEmpty then S else dictItems (foldIns (dictOfList S) B)

/-- The set of dates mentioned in a batch. -/
def datesFinset : List Obs → Finset ℕ
  | [] => ∅
  | o :: B => insert o.date (datesFinset B)

/-- The last value a batch assigns to a date (last write wins), if any. -/
def lastVal : List Obs → ℕ → Option ℚ
  | [], _ => none
  | o :: B, k =>
    match lastVal B k with
    | some v => some v
    | none => if o.date = k then some o.nav else none

/-- The Series invariant of the spec: strictly increasing dates (hence no duplicates). -/
def SeriesInv (S : List Obs) : Prop := S.Pairwise (fun a b => a.date < b.date)

instance : DecidablePred SeriesInv := fun S =>
  inferInstanceAs (Decidable (List.Pairwise (fun a b : Obs => a.date < b.date) S))

/-! ## Indicator calculations (`src/scraper.py` lines 67-176) -/

/-- Consecutive deltas `prices[i] - prices[i-1]`, as in `calculate_rsi`. -/
def deltasOf (prices : List ℚ) : List ℚ :=
  (prices.zip (prices.drop 1)).map (fun pq => pq.2 - pq.1)

/-- `calculate_rsi` (lines 67-88): Wilder-smoothed RSI, `None` when fewer
than `period + 1` prices. -/
def calculate_rsi (prices : List ℚ) (period : ℕ) : Option ℚ :=
  if prices.length < period + 1 then none
  else
    let ds := deltasOf prices
    let gains := ds.map (fun d => max d 0)
    let losses := ds.map (fun d => max (-d) 0)
    let avg_gain := (gains.take period).sum / (period : ℚ)
    let avg_loss := (losses.take period).sum / (period : ℚ)
    let smoothed := ((gains.drop period).zip (losses.drop period)).foldl
      (fun avgs gl =>
        ((avgs.1 * ((period : ℚ) - 1) + gl.1) / (period : ℚ),
         (avgs.2 * ((period : ℚ) - 1) + gl.2) / (period : ℚ)))
      (avg_gain, avg_loss)
    if smoothed.2 = 0 then some 100
    else some (round2 (100 - 100 / (1 + smoothed.1 / smoothed.2)))

/-- The Wilder smoothing recurrence `avg = (avg*(period-1) + new)/period`,
stated on a single stream (the Python loop carries the gain and loss
averages through the same loop; see `calculate_rsi`). -/
def wilder (period : ℕ) (seed : ℚ) (xs : List ℚ) : ℚ :=
  xs.foldl (fun avg x => (avg * ((period : ℚ) - 1) + x) / (period : ℚ)) seed

/-- The smoothed average gain of `calculate_rsi` at period 14: the Wilder
recurrence seeded with the simple mean of the first 14 gains. -/
def avgGain14 (prices : List ℚ) : ℚ :=
  wilder 14 ((((deltasOf prices).map (fun d => max d 0)).take 14).sum / ((14 : ℕ) : ℚ))
    (((deltasOf prices).map (fun d => max d 0)).drop 14)

/-- The smoothed average loss of `calculate_rsi` at period 14: the Wilder
recurrence seeded with the simple mean of the first 14 losses. -/
def avgLoss14 (prices : List ℚ) : ℚ :=
  wilder 14 ((((deltasOf prices).map (fun d => max (-d) 0)).take 14).sum / ((14 : ℕ) : ℚ))
    (((deltasOf prices).map (fun d => max (-d) 0)).drop 14)

/-- `calculate_ma` (lines 91-95): simple moving average of the last `period` prices. -/
def calculate_ma (prices : List ℚ) (period : ℕ) : Option ℚ :=
  if prices.length < period then none
  else some (round4 ((prices.drop (prices.length - period)).sum / (period : ℚ)))

/-- `calculate_pct_change` (lines 98-106): percentage change over `days`,
`None` when the window does not fit or the base value is zero. -/
def calculate_pct_change (prices : List ℚ) (days : ℕ) : Option ℚ :=
  if prices.length < days + 1 then none
  else
    let old := prices.getD (prices.length - (days + 1)) 0
    let recent := prices.getD (prices.length - 1) 0
    if old = 0 then none else some (round2 ((recent - old) / old * 100))

/-- `calculate_volatility` (lines 109-117): population standard deviation of
the trailing `period` daily returns.  The Python list comprehension divides
by `prices[i-1]` with no zero guard, so a zero price inside the window
raises `ZeroDivisionError`; that is modelled as `Except.error ()`.  The
returned value is kept as the exact variance of the returns: the final
`round(math.sqrt(variance) * 100, 2)` is a strictly monotone floating-point
postprocessing step that no claim refers to. -/
def calculate_volatility (prices : List ℚ) (period : ℕ) : Except Unit (Option ℚ) :=
  if prices.length < period + 1 then Except.ok none
  else
    let n := prices.length
    let idxs := List.range' (n - period) period
    if idxs.any (fun i => prices.getD (i - 1) 0 = 0) then Except.error ()
    else
      let returns := idxs.map (fun i =>
        (prices.getD i 0 - prices.getD (i - 1) 0) / prices.getD (i - 1) 0)
      let mean := returns.sum / (returns.length : ℚ)
      let variance := (returns.map (fun r => (r - mean) ^ 2)).sum / (returns.length : ℚ)
      Except.ok (some variance)

/-- `rsi_signal` (lines 120-132). -/
def rsi_signal (rsi : Option ℚ) : String :=
  match rsi with
  | none => "N/A"
  | some r =>
    if r ≥ 70 then "OVERBOUGHT"
    else if r ≤ 30 then "OVERSOLD"
    else if r ≥ 55 then "BULLISH"
    else if r ≤ 45 then "BEARISH"
    else "NEUTRAL"

/-- `trend_signal` (lines 135-143). -/
def trend_signal (price : ℚ) (ma20 ma50 : Option ℚ) : String :=
  match ma20, ma50 with
  | some m20, some m50 =>
    if price > m20 ∧ m20 > m50 then "UPTREND"
    else if price < m20 ∧ m20 < m50 then "DOWNTREND"
    else "SIDEWAYS"
  | _, _ => "N/A"

/-- The `IndicatorSnapshot` dict built by `compute_indicators`. -/
structure Snapshot where
  fund_code : String
  date : ℕ := 0
  nav : ℚ := 0
  rsi_14 : Option ℚ := none
  rsi_signal : String := "N/A"
  ma5 : Option ℚ := none
  ma20 : Option ℚ := none
  ma50 : Option ℚ := none
  trend : String := "N/A"
  pct_1d : Option ℚ := none
  pct_1w : Option ℚ := none
  pct_1m : Option ℚ := none
  pct_3m : Option ℚ := none
  pct_6m : Option ℚ := none
  pct_1y : Option ℚ := none
  volatility_20d : Option ℚ := none
  data_points : ℕ := 0
deriving DecidableEq, Repr

/-- `compute_indicators` (lines 146-176): `None` for fewer than 5
observations, otherwise the snapshot of all indicators over the
date-sorted price list.  In Python every field of the dict literal is a
pure computation except `volatility_20d`, whose `ZeroDivisionError`
propagates out of the function; here the fallible computation is
sequenced first, which yields the same `Except` result. -/
def compute_indicators (fund_code : String) (nav_history : List Obs) :
    Except Unit (Option Snapshot) :=
  if nav_history.length < 5 then Except.ok none
  else
    let sorted_nav := nav_history.insertionSort dateLE
    let prices := sorted_nav.map Obs.nav
    let current_price := prices.getD (prices.length - 1) 0
    let current_date := (sorted_nav.map Obs.date).getD (sorted_nav.length - 1) 0
    match calculate_volatility prices 20 with
    | Except.error e => Except.error e
    | Except.ok vol => Except.ok (some
      { fund_code := fund_code
        date := current_date
        nav := current_price
        rsi_14 := calculate_rsi prices 14
        rsi_signal := rsi_signal (calculate_rsi prices 14)
        ma5 := calculate_ma prices 5
        ma20 := calculate_ma prices 20
        ma50 := calculate_ma prices 50
        trend := trend_signal current_price (calculate_ma prices 20) (calculate_ma prices 50)
        pct_1d := calculate_pct_change prices 1
        pct_1w := calculate_pct_change prices 5
        pct_1m := calculate_pct_change prices 21
        pct_3m := calculate_pct_change prices 63
        pct_6m := calculate_pct_change prices 126
        pct_1y := calculate_pct_change prices 252
        volatility_20d := vol
        data_points := prices.length })

/-! ## Capital flow proxy (`compute_flow_proxy`, lines 249-281) -/

/-- One entry of the `flow_proxy` dict. -/
structure FlowEntry where
  signal : String
  strength : ℕ
  vs_category : ℚ
  note : String
deriving DecidableEq, Repr

/-- Renders `"<sign><diff to 1 decimal>% vs category median"`.  The digit
rendering of Python's `f"{diff:.1f}"` (a float format) is reproduced up to
the direction of half-way rounding ties, which no claim observes. -/
def flowNote (diff : ℚ) : String :=
  let t : ℤ := roundq (diff * 10)
  (if 0 < diff then "+" else "") ++
    (if t < 0 then "-" else "") ++
    toString (t.natAbs / 10) ++ "." ++ toString (t.natAbs % 10) ++
    "% vs category median"

/-- The median used by `compute_flow_proxy` (line 259):
`sorted(returns_1m)[len(returns_1m) // 2]`. -/
def flow_median (returns_1m : List ℚ) : ℚ :=
  (returns_1m.insertionSort (· ≤ ·)).getD (returns_1m.length / 2) 0

/-- The per-fund classification of `compute_flow_proxy` (lines 263-279). -/
def flowEntry (diff : ℚ) : FlowEntry :=
  if 3/2 < diff then
    ⟨"INFLOW", min (Int.toNat (ratFloor (|diff| / (1/2)))) 5, round2 diff, flowNote diff⟩
  else if diff < -(3/2) then
    ⟨"OUTFLOW", min (Int.toNat (ratFloor (|diff| / (1/2)))) 5, round2 diff, flowNote diff⟩
  else
    ⟨"NEUTRAL", 1, round2 diff, flowNote diff⟩

/-- The `valid` list of `compute_flow_proxy` (line 254): non-`None`
snapshots whose `pct_1m` is present. -/
def validFunds (indicators_list : List (Option Snapshot)) : List Snapshot :=
  (indicators_list.filterMap id).filter (fun f => f.pct_1m.isSome)

/-- `compute_flow_proxy` (lines 249-281), as the association list underlying
the returned dict (fund codes are distinct in the configured universe, so
the dict and the association list carry the same data). -/
def compute_flow_proxy (indicators_list : List (Option Snapshot)) :
    List (String × FlowEntry) :=
  let valid := validFunds indicators_list
  if valid.isEmpty then []
  else
    let returns_1m := valid.map (fun f => f.pct_1m.getD 0)
    let median_return := flow_median returns_1m
    valid.map (fun f => (f.fund_code, flowEntry (f.pct_1m.getD 0 - median_return)))

/-! ## Momentum ranking (`rank_funds`, lines 288-310) -/

/-- The composite score accumulated by the loop body of `rank_funds`:
Python's `if fund.get(key):` skips both `None` and zero (falsy) values. -/
def momentumScore (f : Snapshot) : ℚ :=
  (match f.pct_1w with
   | some v => if v = 0 then 0 else v * (4/10)
   | none => 0) +
  (match f.pct_1m with
   | some v => if v = 0 then 0 else v * (4/10)
   | none => 0) +
  (match f.rsi_14 with
   | some r => if r = 0 then 0 else (r - 50) / 50 * 20 * (2/10)
   | none => 0)

/-- Descending-by-score ordering used by `scoreable.sort(key=..., reverse=True)`;
Python's `reverse=True` sort is stable, keeping tied entries in input order,
exactly as `insertionSort` with this relation does. -/
def scoreGE (a b : String × ℚ) : Prop := b.2 ≤ a.2

instance : DecidableRel scoreGE := fun a b => inferInstanceAs (Decidable (b.2 ≤ a.2))

instance : IsTotal (String × ℚ) scoreGE := ⟨fun a b => le_total b.2 a.2⟩

instance : IsTrans (String × ℚ) scoreGE := ⟨fun _ _ _ h1 h2 => le_trans h2 h1⟩

/-- `rank_funds` (lines 288-310), as the association list underlying the
returned dict: each non-`None` snapshot is scored, the list is stably
sorted descending by score, and dense 1-based ranks are assigned by
enumeration. -/
def rank_funds (indicators_list : List (Option Snapshot)) :
    List (String × ℕ × ℚ) :=
  let scoreable := indicators_list.filterMap
    (fun of => of.map (fun f => (f.fund_code, round4 (momentumScore f))))
  let sorted := scoreable.insertionSort scoreGE
  sorted.enum.map (fun ip => (ip.2.1, ip.1 + 1, ip.2.2))

/-! ## Fetch boundary and per-fund pipeline step -/

/-- The strategy boundary of `fetch_nav_from_morningstar` (lines 183-210):
the body's outcome (the parsed records, or any exception the `try` block
raised) is the `Except` input; the `except` clause downgrades every
exception to the empty list. -/
def fetch_nav_result (outcome : Except String (List Obs)) : List Obs :=
  match outcome with
  | Except.ok records => records
  | Except.error _ => []

/-- One iteration of the per-fund loop of `run_daily_pipeline`
(lines 353-367): apply the fetch boundary, merge a non-empty batch into the
stored history (`if nav_data:` is the guard inside `mergeNav`), and compute
indicators from the resulting history. -/
def processFund (code : String) (hist : List Obs) (outcome : Except String (List Obs)) :
    List Obs × Except Unit (Option Snapshot) :=
  let nav_data := fetch_nav_result outcome
  let hist2 := mergeNav hist nav_data
  (hist2, compute_indicators code hist2)

/-! ## Dashboard assembly (`run_daily_pipeline`, lines 403-453) -/

/-- The composite dashboard record, restricted to the fields the
cross-sectional views and the claims read; the remaining fields of the
Python dict are verbatim copies of snapshot fields. -/
structure DashFund where
  code : String
  nav : ℚ := 0
  date : ℕ := 0
  pct_1m : Option ℚ := none
  rsi_14 : Option ℚ := none
  flow_signal : String := "N/A"
  flow_vs_category : Option ℚ := none
  flow_note : String := ""
  momentum_rank : Option ℕ := none
  momentum_score : Option ℚ := none
deriving DecidableEq, Repr

/-- Assembly of one dashboard record (lines 408-431):
`flow_proxy.get(code, {}).get("signal", "N/A")` and friends. -/
def mkDashFund (flow_proxy : List (String × FlowEntry))
    (rankings : List (String × ℕ × ℚ)) (ind : Snapshot) : DashFund :=
  { code := ind.fund_code
    nav := ind.nav
    date := ind.date
    pct_1m := ind.pct_1m
    rsi_14 := ind.rsi_14
    flow_signal := ((flow_proxy.lookup ind.fund_code).map FlowEntry.signal).getD "N/A"
    flow_vs_category := (flow_proxy.lookup ind.fund_code).map FlowEntry.vs_category
    flow_note := ((flow_proxy.lookup ind.fund_code).map FlowEntry.note).getD ""
    momentum_rank := (rankings.lookup ind.fund_code).map Prod.fst
    momentum_score := (rankings.lookup ind.fund_code).map (fun rs => rs.2) }

/-- The `oversold_funds` dashboard view (lines 449-450):
`f.get("rsi_14") and f["rsi_14"] <= 35` — the first conjunct is Python
truthiness, so both a missing RSI and an RSI of exactly 0 fail it. -/
def oversold_funds (dashboard_funds : List DashFund) : List DashFund :=
  dashboard_funds.filter (fun f =>
    match f.rsi_14 with
    | none => false
    | some r => !(decide (r = 0)) && decide (r ≤ 35))

/-! ## Concrete inputs used by the verification -/

/-- Fund A of the end-to-end scenario: 1-month change of 3. -/
def snapA : Snapshot := { fund_code := "A", pct_1m := some 3 }

/-- Fund B of the end-to-end scenario: 1-month change of −2. -/
def snapB : Snapshot := { fund_code := "B", pct_1m := some (-2) }

/-- A fund with an indicator snapshot but no 1-month change. -/
def snapX : Snapshot := { fund_code := "X", pct_1w := some 2 }

/-- A series of 21 observations whose earliest NAV is zero (a zero NAV is
producible by the fetcher, which defaults a missing `nav` field to `0`). -/
def zeroNavSeries : List Obs :=
  (List.range 21).map (fun i => Obs.mk i (if i = 0 then 0 else 1))

/-- Fifteen strictly increasing prices. -/
def increasingPrices : List ℚ := [1, 2, 3, 4, 5, 6, 7, 8, 9, 10, 11, 12, 13, 14, 15]

/-- Fifteen strictly decreasing prices. -/
def decreasingPrices : List ℚ := [15, 14, 13, 12, 11, 10, 9, 8, 7, 6, 5, 4, 3, 2, 1]

/-- A dashboard record whose RSI is exactly zero. -/
def dashZ : DashFund := { code := "Z", rsi_14 := some 0 }

/-- A stored series with observations on dates 1 and 2. -/
def series0 : List Obs := [Obs.mk 1 10, Obs.mk 2 20]

/-- A fetched batch that overwrites date 2 twice and adds date 3. -/
def batch0 : List Obs := [Obs.mk 2 30, Obs.mk 3 5, Obs.mk 2 40]

/-! # Verification

Helper lemmas first, then one theorem per claim of the specification review. -/

/-! ### Facts about the dict model of the merge -/

theorem keys_foldIns (B : List Obs) : ∀ m : NavDict,
    (foldIns m B).keys = m.keys ∪ datesFinset B := by
  induction B with
  | nil => intro m; simp [foldIns, datesFinset]
  | cons o B ih =>
    intro m
    show (foldIns (dictInsert m o.date o.nav) B).keys = _
    rw [ih]
    simp [dictInsert, datesFinset, Finset.insert_union, Finset.union_insert]

theorem val_foldIns (B : List Obs) : ∀ (m : NavDict) (k : ℕ),
    (foldIns m B).val k = (lastVal B k).getD (m.val k) := by
  induction B with
  | nil => intro m k; simp [foldIns, lastVal]
  | cons o B ih =>
    intro m k
    show (foldIns (dictInsert m o.date o.nav) B).val k = _
    rw [ih]
    cases h : lastVal B k with
    | some v => simp [lastVal, h]
    | none =>
      by_cases hk : k = o.date
      · subst hk; simp [lastVal, h, dictInsert]
      · simp [lastVal, h, dictInsert, hk, Ne.symm hk]

theorem keys_dictOfList (S : List Obs) : (dictOfList S).keys = datesFinset S := by
  rw [dictOfList, keys_foldIns]
  simp [emptyDict]

theorem val_dictOfList (S : List Obs) (k : ℕ) :
    (dictOfList S).val k = (lastVal S k).getD 0 := by
  rw [dictOfList, val_foldIns]
  simp [emptyDict]

theorem mem_datesFinset {k : ℕ} : ∀ {l : List Obs},
    k ∈ datesFinset l ↔ ∃ o ∈ l, o.date = k := by
  intro l
  induction l with
  | nil => simp [datesFinset]
  | cons o B ih =>
    simp only [datesFinset, Finset.mem_insert, ih, List.mem_cons]
    constructor
    · rintro (h | ⟨o2, h2, h3⟩)
      · exact ⟨o, Or.inl rfl, h.symm⟩
      · exact ⟨o2, Or.inr h2, h3⟩
    · rintro ⟨o2, h2 | h2, h3⟩
      · subst h2; exact Or.inl h3.symm
      · exact Or.inr ⟨o2, h2, h3⟩

theorem lastVal_isSome {k : ℕ} : ∀ {l : List Obs},
    (lastVal l k).isSome = true ↔ k ∈ datesFinset l := by
  intro l
  induction l with
  | nil => simp [lastVal, datesFinset]
  | cons o B ih =>
    cases h : lastVal B k with
    | some v =>
      simp only [lastVal, h, Option.isSome_some, true_iff, datesFinset, Finset.mem_insert]
      exact Or.inr (ih.mp (by simp [h]))
    | none =>
      by_cases hk : o.date = k
      · simp [lastVal, h, hk, datesFinset]
      · simp only [lastVal, h, hk, if_false, datesFinset, Finset.mem_insert]
        simp only [h, Option.isSome_none] at ih
        simp [Ne.symm hk, ← ih]

theorem lastVal_of_nodup {l : List Obs} (hnd : (l.map Obs.date).Nodup)
    {o : Obs} (ho : o ∈ l) : lastVal l o.date = some o.nav := by
  induction l with
  | nil => simp at ho
  | cons a B ih =>
    simp only [List.map_cons, List.nodup_cons, List.mem_map] at hnd
    rcases List.mem_cons.mp ho with h | h
    · subst h
      have hnone : lastVal B o.date = none := by
        cases hv : lastVal B o.date with
        | none => rfl
        | some v =>
          have : o.date ∈ datesFinset B := lastVal_isSome.mp (by simp [hv])
          rcases mem_datesFinset.mp this with ⟨o2, ho2, hdo2⟩
          exact absurd ⟨o2, ho2, hdo2⟩ hnd.1
      simp [lastVal, hnone]
    · exact (by simp [lastVal, ih hnd.2 h] : lastVal (a :: B) o.date = some o.nav)

theorem dates_dictItems (m : NavDict) :
    (dictItems m).map Obs.date = m.keys.sort (· ≤ ·) := by
  simp only [dictItems, List.map_map]
  exact (List.map_congr_left fun d _ => rfl).trans (List.map_id _)

theorem datesFinset_dictItems (m : NavDict) : datesFinset (dictItems m) = m.keys := by
  ext k
  rw [mem_datesFinset]
  constructor
  · rintro ⟨o, ho, hd⟩
    rcases List.mem_map.mp ho with ⟨d, hd2, rfl⟩
    simpa using hd ▸ (Finset.mem_sort (α := ℕ) (· ≤ ·)).mp hd2
  · intro hk
    exact ⟨Obs.mk k (m.val k), List.mem_map.mpr ⟨k, (Finset.mem_sort (α := ℕ) (· ≤ ·)).mpr hk, rfl⟩, rfl⟩

theorem lastVal_dictItems {m : NavDict} {k : ℕ} (hk : k ∈ m.keys) :
    lastVal (dictItems m) k = some (m.val k) := by
  have hnd : ((dictItems m).map Obs.date).Nodup := by
    rw [dates_dictItems]; exact Finset.sort_nodup _ _
  have hmem : Obs.mk k (m.val k) ∈ dictItems m :=
    List.mem_map.mpr ⟨k, (Finset.mem_sort (α := ℕ) (· ≤ ·)).mpr hk, rfl⟩
  exact lastVal_of_nodup hnd hmem

theorem dictItems_congr {m1 m2 : NavDict} (hk : m1.keys = m2.keys)
    (hv : ∀ k ∈ m1.keys, m1.val k = m2.val k) : dictItems m1 = dictItems m2 := by
  unfold dictItems
  rw [← hk]
  exact List.map_congr_left (fun d hd => by
    rw [hv d ((Finset.mem_sort (α := ℕ) (· ≤ ·)).mp hd)])

theorem isEmpty_false_of_ne_nil {l : List Obs} (h : l ≠ []) : l.isEmpty = false := by
  cases l with
  | nil => exact absurd rfl h
  | cons a t => rfl

theorem mergeNav_nil (S : List Obs) : mergeNav S [] = S := rfl

theorem mergeNav_ne_nil (S : List Obs) {B : List Obs} (hB : B ≠ []) :
    mergeNav S B = dictItems (foldIns (dictOfList S) B) := by
  simp only [mergeNav, isEmpty_false_of_ne_nil hB, Bool.false_eq_true, if_false]

theorem keys_merged (S B : List Obs) :
    (foldIns (dictOfList S) B).keys = datesFinset S ∪ datesFinset B := by
  rw [keys_foldIns, keys_dictOfList]

theorem mergeNav_idem (S B : List Obs) : mergeNav (mergeNav S B) B = mergeNav S B := by
  by_cases hB : B = []
  · subst hB; rfl
  · rw [mergeNav_ne_nil S hB, mergeNav_ne_nil _ hB]
    have hkeys : (foldIns (dictOfList (dictItems (foldIns (dictOfList S) B))) B).keys =
        (foldIns (dictOfList S) B).keys := by
      rw [keys_foldIns, keys_dictOfList, datesFinset_dictItems, keys_merged,
        Finset.union_assoc, Finset.union_self]
    refine dictItems_congr hkeys ?_
    intro k hk
    have hk2 : k ∈ (foldIns (dictOfList S) B).keys := hkeys ▸ hk
    rw [val_foldIns]
    cases hbk : lastVal B k with
    | some v =>
      rw [val_foldIns, hbk]
      rfl
    | none =>
      simp only [Option.getD_none]
      rw [val_dictOfList, lastVal_dictItems hk2, Option.getD_some]

theorem mergeNav_pairwise {S : List Obs} (B : List Obs) (hS : SeriesInv S) :
    (mergeNav S B).Pairwise (fun a b => a.date < b.date) := by
  by_cases hB : B = []
  · subst hB; exact hS
  · rw [mergeNav_ne_nil S hB]
    unfold dictItems
    rw [List.pairwise_map]
    exact Finset.sort_sorted_lt _

theorem mergeNav_keeps_dates (S B : List Obs) :
    ∀ o ∈ S, ∃ o2 ∈ mergeNav S B, o2.date = o.date := by
  intro o ho
  by_cases hB : B = []
  · subst hB; exact ⟨o, ho, rfl⟩
  · rw [mergeNav_ne_nil S hB]
    have hk : o.date ∈ (foldIns (dictOfList S) B).keys := by
      rw [keys_merged]
      exact Finset.mem_union_left _ (mem_datesFinset.mpr ⟨o, ho, rfl⟩)
    exact ⟨Obs.mk o.date ((foldIns (dictOfList S) B).val o.date),
      List.mem_map.mpr ⟨o.date, (Finset.mem_sort (α := ℕ) (· ≤ ·)).mpr hk, rfl⟩, rfl⟩

theorem mergeNav_last_write_wins (S : List Obs) {B : List Obs} {d : ℕ} {v : ℚ}
    (hlv : lastVal B d = some v) : Obs.mk d v ∈ mergeNav S B := by
  have hB : B ≠ [] := by
    intro h; subst h; simp [lastVal] at hlv
  rw [mergeNav_ne_nil S hB]
  have hk : d ∈ (foldIns (dictOfList S) B).keys := by
    rw [keys_merged]
    exact Finset.mem_union_right _ (lastVal_isSome.mp (by simp [hlv]))
  have hval : (foldIns (dictOfList S) B).val d = v := by
    rw [val_foldIns, hlv, Option.getD_some]
  exact List.mem_map.mpr ⟨d, (Finset.mem_sort (α := ℕ) (· ≤ ·)).mpr hk, by rw [hval]⟩

/-! ### Facts about the cross-sectional functions -/

theorem filterMap_option_map {α β : Type} (g : α → β) :
    ∀ l : List (Option α), (l.filterMap (fun of => of.map g)) = (l.filterMap id).map g := by
  intro l
  induction l with
  | nil => rfl
  | cons of t ih => cases of <;> simp [ih]

theorem enumFrom_map_succ_fst {α : Type} :
    ∀ (xs : List α) (n : ℕ),
      (List.enumFrom n xs).map (fun ip => ip.1 + 1) = List.range' (n + 1) xs.length := by
  intro xs
  induction xs with
  | nil => intro n; rfl
  | cons x t ih => intro n; simp [List.enumFrom, List.range', ih]

theorem enumFrom_map_of_snd {α β : Type} (f : ℕ × α → β)
    (g : α → β) (hf : ∀ i a, f (i, a) = g a) :
    ∀ (xs : List α) (n : ℕ), (List.enumFrom n xs).map f = xs.map g := by
  intro xs
  induction xs with
  | nil => intro n; rfl
  | cons x t ih => intro n; simp [List.enumFrom, hf, ih]

theorem zip_drop_one_rel {α : Type} (r : α → α → Prop) :
    ∀ {l : List α}, l.Pairwise r → ∀ p ∈ l.zip (l.drop 1), r p.1 p.2 := by
  intro l
  induction l with
  | nil => intro _ p hp; simp at hp
  | cons a t ih =>
    intro h p hp
    cases t with
    | nil => simp at hp
    | cons b t2 =>
      simp only [List.drop_succ_cons, List.drop_zero, List.zip_cons_cons] at hp
      rcases List.mem_cons.mp hp with h1 | h1
      · subst h1
        exact (List.pairwise_cons.mp h).1 b (List.mem_cons_self b t2)
      · exact ih (List.pairwise_cons.mp h).2 p
          (by simpa [List.drop_succ_cons, List.drop_zero] using h1)

theorem foldl_zip_pair {α : Type} (f g : ℚ → α → ℚ) :
    ∀ (xs : List α) (ys : List α) (a b : ℚ), xs.length = ys.length →
      (xs.zip ys).foldl (fun p q => (f p.1 q.1, g p.2 q.2)) (a, b) =
        (xs.foldl f a, ys.foldl g b) := by
  intro xs
  induction xs with
  | nil =>
    intro ys a b hlen
    cases ys with
    | nil => rfl
    | cons y t => simp at hlen
  | cons x xt ih =>
    intro ys a b hlen
    cases ys with
    | nil => simp at hlen
    | cons y yt =>
      simp only [List.zip_cons_cons, List.foldl_cons]
      exact ih yt (f a x) (g b y) (by simpa using hlen)

theorem momentumScore_eq (f : Snapshot) : momentumScore f =
    f.pct_1w.getD 0 * (4/10) + f.pct_1m.getD 0 * (4/10) +
      (if f.rsi_14.getD 0 = 0 then 0
       else (f.rsi_14.getD 0 - 50) / 50 * 20 * (2/10)) := by
  unfold momentumScore
  cases h1 : f.pct_1w with
  | none => cases h2 : f.pct_1m with
    | none => cases h3 : f.rsi_14 <;> simp
    | some m => cases h3 : f.rsi_14 <;> by_cases hm : m = 0 <;> simp [hm]
  | some w => cases h2 : f.pct_1m with
    | none => cases h3 : f.rsi_14 <;> by_cases hw : w = 0 <;> simp [hw]
    | some m =>
      cases h3 : f.rsi_14 <;> by_cases hw : w = 0 <;> by_cases hm : m = 0 <;>
        simp [hw, hm]

theorem flow_proxy_keys (l : List (Option Snapshot)) :
    (compute_flow_proxy l).map Prod.fst = (validFunds l).map Snapshot.fund_code := by
  unfold compute_flow_proxy
  cases hv : (validFunds l).isEmpty with
  | true =>
    have : validFunds l = [] := List.isEmpty_iff.mp hv
    simp [this]
  | false =>
    have hne : validFunds l ≠ [] := by
      intro h
      rw [h] at hv
      simp at hv
    simp [hne, List.map_map, Function.comp_def]

theorem lookup_eq_none_of_keys {β : Type} (k : String) :
    ∀ l : List (String × β), (∀ p ∈ l, p.1 ≠ k) → l.lookup k = none := by
  intro l
  induction l with
  | nil => intro _; rfl
  | cons a t ih =>
    intro h
    cases a with
    | mk a1 b1 =>
      have hne : a1 ≠ k := h (a1, b1) (List.mem_cons_self _ t)
      have hbeq : (k == a1) = false := by
        simp only [beq_eq_false_iff_ne, ne_eq]
        exact fun he => hne he.symm
      simp only [List.lookup, hbeq]
      exact ih (fun p hp => h p (List.mem_cons_of_mem _ hp))


/-! ### Facts about the flow proxy -/

theorem flowEntry_signal (d : ℚ) : (flowEntry d).signal =
    (if 3/2 < d then "INFLOW" else if d < -(3/2) then "OUTFLOW" else "NEUTRAL") := by
  unfold flowEntry
  split_ifs <;> rfl

theorem flowEntry_vs (d : ℚ) : (flowEntry d).vs_category = round2 d := by
  unfold flowEntry
  split_ifs <;> rfl

theorem compute_flow_proxy_of_ne {l : List (Option Snapshot)} (hne : validFunds l ≠ []) :
    compute_flow_proxy l = (validFunds l).map (fun f => (f.fund_code,
      flowEntry (f.pct_1m.getD 0 -
        flow_median ((validFunds l).map (fun g => g.pct_1m.getD 0))))) := by
  have h : (validFunds l).isEmpty = false := by
    cases hv : validFunds l with
    | nil => exact absurd hv hne
    | cons a t => rfl
  simp only [compute_flow_proxy, h, Bool.false_eq_true, if_false]

/-! ### Stability of the descending sort used by the momentum ranking -/

theorem filter_orderedInsert_pos {α : Type} (r : α → α → Prop) [DecidableRel r]
    (p : α → Bool) {a : α} (hpa : p a = true) (hstep : ∀ b, ¬ r a b → p b = false) :
    ∀ l : List α, (l.orderedInsert r a).filter p = a :: l.filter p := by
  intro l
  induction l with
  | nil => simp [List.orderedInsert, hpa]
  | cons b t ih =>
    by_cases hr : r a b
    · simp [List.orderedInsert, hr, hpa]
    · have hpb := hstep b hr
      simp [List.orderedInsert, hr, hpb, ih]

theorem filter_orderedInsert_neg {α : Type} (r : α → α → Prop) [DecidableRel r]
    (p : α → Bool) {a : α} (hpa : p a = false) :
    ∀ l : List α, (l.orderedInsert r a).filter p = l.filter p := by
  intro l
  induction l with
  | nil => simp [List.orderedInsert, hpa]
  | cons b t ih =>
    by_cases hr : r a b
    · simp [List.orderedInsert, hr, hpa]
    · cases hpb : p b <;> simp [List.orderedInsert, hr, hpb, ih, hpa]

theorem filter_insertionSort {α : Type} (r : α → α → Prop) [DecidableRel r]
    (p : α → Bool) (hstep : ∀ a b, p a = true → ¬ r a b → p b = false) :
    ∀ l : List α, (l.insertionSort r).filter p = l.filter p := by
  intro l
  induction l with
  | nil => rfl
  | cons a t ih =>
    show (List.orderedInsert r a (t.insertionSort r)).filter p = _
    cases hpa : p a with
    | true => rw [filter_orderedInsert_pos r p hpa (fun b => hstep a b hpa), ih]; simp [hpa]
    | false => rw [filter_orderedInsert_neg r p hpa, ih]; simp [hpa]

/-! ### Facts about the momentum ranking -/

theorem enum_eq_enumFrom {α : Type} (l : List α) : l.enum = List.enumFrom 0 l := rfl

theorem rank_funds_unfold (l : List (Option Snapshot)) :
    rank_funds l =
      (((l.filterMap id).map (fun f => (f.fund_code, round4 (momentumScore f)))).insertionSort
        scoreGE).enum.map (fun ip => (ip.2.1, ip.1 + 1, ip.2.2)) := by
  unfold rank_funds
  rw [filterMap_option_map]

theorem rank_funds_map_rank (l : List (Option Snapshot)) :
    (rank_funds l).map (fun e => e.2.1) = List.range' 1 ((l.filterMap id).length) := by
  rw [rank_funds_unfold, List.map_map, enum_eq_enumFrom]
  have h1 : (List.enumFrom 0 (((l.filterMap id).map
        (fun f => (f.fund_code, round4 (momentumScore f)))).insertionSort scoreGE)).map
      ((fun e => e.2.1) ∘ (fun ip : ℕ × String × ℚ => (ip.2.1, ip.1 + 1, ip.2.2))) =
      (List.enumFrom 0 (((l.filterMap id).map
        (fun f => (f.fund_code, round4 (momentumScore f)))).insertionSort scoreGE)).map
      (fun ip => ip.1 + 1) :=
    List.map_congr_left (fun ip _ => rfl)
  rw [h1, enumFrom_map_succ_fst]
  rw [(List.perm_insertionSort scoreGE _).length_eq, List.length_map]

theorem rank_funds_map_pairs (l : List (Option Snapshot)) :
    (rank_funds l).map (fun e => (e.1, e.2.2)) =
      ((l.filterMap id).map (fun f => (f.fund_code, round4 (momentumScore f)))).insertionSort
        scoreGE := by
  rw [rank_funds_unfold, List.map_map, enum_eq_enumFrom]
  have h1 := enumFrom_map_of_snd
    ((fun e : String × ℕ × ℚ => (e.1, e.2.2)) ∘ (fun ip : ℕ × String × ℚ => (ip.2.1, ip.1 + 1, ip.2.2)))
    (fun p : String × ℚ => (p.1, p.2)) (fun i a => rfl)
    (((l.filterMap id).map (fun f => (f.fund_code, round4 (momentumScore f)))).insertionSort scoreGE) 0
  rw [h1]
  exact (List.map_congr_left fun p _ => Prod.mk.eta).trans (List.map_id _)

theorem rank_funds_scores_sorted (l : List (Option Snapshot)) :
    ((rank_funds l).map (fun e => e.2.2)).Pairwise (fun a b => b ≤ a) := by
  rw [rank_funds_unfold, List.map_map, enum_eq_enumFrom]
  have h1 := enumFrom_map_of_snd
    ((fun e : String × ℕ × ℚ => e.2.2) ∘ (fun ip : ℕ × String × ℚ => (ip.2.1, ip.1 + 1, ip.2.2)))
    (fun p : String × ℚ => p.2) (fun i a => rfl)
    (((l.filterMap id).map (fun f => (f.fund_code, round4 (momentumScore f)))).insertionSort scoreGE) 0
  rw [h1, List.pairwise_map]
  exact List.sorted_insertionSort scoreGE _

theorem rank_codes_perm (l : List (Option Snapshot)) :
    ((rank_funds l).map Prod.fst).Perm ((l.filterMap id).map Snapshot.fund_code) := by
  rw [rank_funds_unfold, List.map_map, enum_eq_enumFrom]
  have h1 := enumFrom_map_of_snd
    (Prod.fst ∘ (fun ip : ℕ × String × ℚ => (ip.2.1, ip.1 + 1, ip.2.2)))
    (fun p : String × ℚ => p.1) (fun i a => rfl)
    (((l.filterMap id).map (fun f => (f.fund_code, round4 (momentumScore f)))).insertionSort scoreGE) 0
  rw [h1]
  have h2 := (List.perm_insertionSort scoreGE
    ((l.filterMap id).map (fun f => (f.fund_code, round4 (momentumScore f))))).map
    (fun p : String × ℚ => p.1)
  have h3 : ((l.filterMap id).map (fun f => (f.fund_code, round4 (momentumScore f)))).map
      (fun p : String × ℚ => p.1) = (l.filterMap id).map Snapshot.fund_code := by
    rw [List.map_map]
    exact List.map_congr_left (fun f _ => rfl)
  rw [← h3]
  exact h2

/-! ### Facts about the RSI -/

theorem wilder_zero (xs : List ℚ) (h : ∀ x ∈ xs, x = 0) : wilder 14 0 xs = 0 := by
  induction xs with
  | nil => rfl
  | cons x t ih =>
    have hx : x = 0 := h x (List.mem_cons_self x t)
    show List.foldl _ ((0 * (((14 : ℕ) : ℚ) - 1) + x) / ((14 : ℕ) : ℚ)) t = 0
    rw [hx]
    have h0 : ((0 : ℚ) * (((14 : ℕ) : ℚ) - 1) + 0) / ((14 : ℕ) : ℚ) = 0 := by norm_num
    rw [h0]
    exact ih (fun y hy => h y (List.mem_cons_of_mem x hy))

theorem foldl_zip_wilder (xs ys : List ℚ) (a b : ℚ) (hlen : xs.length = ys.length) :
    (xs.zip ys).foldl (fun avgs gl =>
      ((avgs.1 * (((14 : ℕ) : ℚ) - 1) + gl.1) / ((14 : ℕ) : ℚ),
       (avgs.2 * (((14 : ℕ) : ℚ) - 1) + gl.2) / ((14 : ℕ) : ℚ))) (a, b) =
    (wilder 14 a xs, wilder 14 b ys) :=
  foldl_zip_pair (fun avg x => (avg * (((14 : ℕ) : ℚ) - 1) + x) / ((14 : ℕ) : ℚ))
    (fun avg x => (avg * (((14 : ℕ) : ℚ) - 1) + x) / ((14 : ℕ) : ℚ)) xs ys a b hlen

theorem calculate_rsi_of_ge (prices : List ℚ) (h : 15 ≤ prices.length) :
    calculate_rsi prices 14 =
      if avgLoss14 prices = 0 then some 100
      else some (round2 (100 - 100 / (1 + avgGain14 prices / avgLoss14 prices))) := by
  have hlen : (((deltasOf prices).map (fun d => max d 0)).drop 14).length =
      (((deltasOf prices).map (fun d => max (-d) 0)).drop 14).length := by simp
  simp only [calculate_rsi]
  rw [if_neg (show ¬ prices.length < 14 + 1 by omega)]
  rw [foldl_zip_wilder _ _ _ _ hlen]
  rfl

/-! ### Claim theorems -/

/-- C5: the history merge is idempotent — for any stored series `S` and any
fetched batch `B`, merging `B` twice yields exactly the series obtained by
merging it once — and merging an empty batch returns the stored series
unchanged. -/
theorem C5_merge_idempotent :
    (∀ S B : List Obs, mergeNav (mergeNav S B) B = mergeNav S B) ∧
    (∀ S : List Obs, mergeNav S [] = S) :=
  ⟨mergeNav_idem, mergeNav_nil⟩

/-- C6: merging any batch into a series satisfying the Series invariant
yields a series with strictly increasing dates (hence at most one
observation per date), containing every date of the existing series, and
holding, at each date the batch mentions, the last value the batch gave for
that date. -/
theorem C6_merge_invariants (S B : List Obs) (hS : SeriesInv S) :
    (mergeNav S B).Pairwise (fun a b => a.date < b.date) ∧
    (∀ o ∈ S, ∃ o2 ∈ mergeNav S B, o2.date = o.date) ∧
    (∀ d v, lastVal B d = some v → Obs.mk d v ∈ mergeNav S B) :=
  ⟨mergeNav_pairwise B hS, mergeNav_keeps_dates S B,
    fun _ _ h => mergeNav_last_write_wins S h⟩

/-- C6 witness: the concrete series `series0` merged with `batch0`, which
overwrites date 2 twice and adds date 3. -/
theorem C6_witness : SeriesInv series0 ∧
    ((mergeNav series0 batch0).Pairwise (fun a b => a.date < b.date) ∧
     (∀ o ∈ series0, ∃ o2 ∈ mergeNav series0 batch0, o2.date = o.date) ∧
     (∀ d v, lastVal batch0 d = some v → Obs.mk d v ∈ mergeNav series0 batch0)) :=
  ⟨by decide, C6_merge_invariants series0 batch0 (by decide)⟩

/-- C3: contrary to the no-fatal-errors design goal, `compute_indicators`
fails on a series of 21 observations whose earliest NAV is zero: the
volatility computation divides by that zero price
(`ZeroDivisionError` in the Python code, `Except.error` here). -/
theorem C3_zero_nav_division :
    compute_indicators "PGF" zeroNavSeries = Except.error () := by decide

/-- C8: every exception of the fetch strategy is downgraded to the empty
observation list at the strategy boundary, and on any empty fetch result
the per-fund pipeline step leaves the stored history unchanged and still
computes indicators from that history. -/
theorem C8_fetch_failure_degrades (code : String) (hist : List Obs) (msg : String) :
    fetch_nav_result (Except.error msg) = [] ∧
    processFund code hist (Except.error msg) = (hist, compute_indicators code hist) ∧
    (∀ outcome : Except String (List Obs), fetch_nav_result outcome = [] →
      processFund code hist outcome = (hist, compute_indicators code hist)) := by
  refine ⟨rfl, rfl, ?_⟩
  intro outcome h
  show (mergeNav hist (fetch_nav_result outcome),
    compute_indicators code (mergeNav hist (fetch_nav_result outcome))) = _
  rw [h, mergeNav_nil]

/-- C8 witness: an empty successful fetch over the series `series0`. -/
theorem C8_witness :
    fetch_nav_result (Except.ok ([] : List Obs)) = [] ∧
    processFund "PGF" series0 (Except.ok []) =
      (series0, compute_indicators "PGF" series0) :=
  ⟨rfl, (C8_fetch_failure_degrades "PGF" series0 "transport error").2.2
    (Except.ok []) rfl⟩

/-- C2 counterexample: a fund whose `pct_1m` is absent is excluded from the
flow proxy but is NOT excluded from the momentum ranking — `rank_funds`
still ranks it (here rank 1), contradicting the claim that it appears in
neither result. -/
theorem C2_counterexample :
    compute_flow_proxy [some snapX] = [] ∧
    (rank_funds [some snapX]).map (fun e => (e.1, e.2.1)) = [("X", 1)] :=
  ⟨by decide, by decide⟩

/-- C2 (amended): funds lacking `pct_1m` are excluded from
`compute_flow_proxy` (its keys are exactly the codes of funds with a
present `pct_1m`), but `rank_funds` ranks every non-`None` snapshot,
including those lacking `pct_1m` (its keys are a permutation of all
snapshot codes). -/
theorem C2_missing_pct1m_scope (l : List (Option Snapshot)) :
    (compute_flow_proxy l).map Prod.fst =
      ((l.filterMap id).filter (fun f => f.pct_1m.isSome)).map Snapshot.fund_code ∧
    ((rank_funds l).map Prod.fst).Perm ((l.filterMap id).map Snapshot.fund_code) :=
  ⟨flow_proxy_keys l, rank_codes_perm l⟩

/-- C7: `rank_funds` assigns exactly the dense ranks 1..N to the N scored
(non-`None`) funds, in descending order of composite score; the scored
entries are a permutation of the input funds scored by
`round4(0.4*pct_1w + 0.4*pct_1m + 0.2*((rsi-50)/50*20))` with absent or
zero (falsy) inputs contributing 0; and tied scores keep the stable input
order (the entries at any fixed score equal the input subsequence at that
score).  Determinism across runs is immediate: `rank_funds` is a pure
function of its input. -/
theorem C7_ranking (l : List (Option Snapshot)) :
    (rank_funds l).map (fun e => e.2.1) = List.range' 1 ((l.filterMap id).length) ∧
    ((rank_funds l).map (fun e => e.2.2)).Pairwise (fun a b => b ≤ a) ∧
    ((rank_funds l).map (fun e => (e.1, e.2.2))).Perm
      ((l.filterMap id).map (fun f => (f.fund_code, round4
        (f.pct_1w.getD 0 * (4/10) + f.pct_1m.getD 0 * (4/10) +
          (if f.rsi_14.getD 0 = 0 then 0
           else (f.rsi_14.getD 0 - 50) / 50 * 20 * (2/10)))))) ∧
    (∀ q : ℚ,
      ((rank_funds l).map (fun e => (e.1, e.2.2))).filter (fun p => decide (p.2 = q)) =
      ((l.filterMap id).map (fun f => (f.fund_code, round4 (momentumScore f)))).filter
        (fun p => decide (p.2 = q))) := by
  refine ⟨rank_funds_map_rank l, rank_funds_scores_sorted l, ?_, ?_⟩
  · rw [rank_funds_map_pairs]
    have heq : (l.filterMap id).map (fun f => (f.fund_code, round4 (momentumScore f))) =
        (l.filterMap id).map (fun f => (f.fund_code, round4
          (f.pct_1w.getD 0 * (4/10) + f.pct_1m.getD 0 * (4/10) +
            (if f.rsi_14.getD 0 = 0 then 0
             else (f.rsi_14.getD 0 - 50) / 50 * 20 * (2/10))))) :=
      List.map_congr_left (fun f _ => by rw [momentumScore_eq])
    rw [← heq]
    exact List.perm_insertionSort scoreGE _
  · intro q
    rw [rank_funds_map_pairs]
    refine filter_insertionSort scoreGE _ ?_ _
    intro a b hpa hr
    have ha : a.2 = q := of_decide_eq_true hpa
    have hb : a.2 < b.2 := not_le.mp hr
    refine decide_eq_false ?_
    intro hbq
    rw [ha, hbq] at hb
    exact lt_irrefl q hb

/-- C4: RSI(14) is absent for fewer than 15 prices; equals exactly 100
whenever the Wilder-smoothed average loss is zero — in particular for every
monotonically non-decreasing series of at least 15 prices; and otherwise
equals `round2 (100 - 100/(1 + avg_gain/avg_loss))` with the smoothed
averages given by the `avg = (avg*13 + new)/14` recurrence seeded by the
simple mean of the first 14 gains/losses (`avgGain14`/`avgLoss14`). -/
theorem C4_rsi (prices : List ℚ) :
    (prices.length < 15 → calculate_rsi prices 14 = none) ∧
    (15 ≤ prices.length → avgLoss14 prices = 0 → calculate_rsi prices 14 = some 100) ∧
    (15 ≤ prices.length → avgLoss14 prices ≠ 0 →
      calculate_rsi prices 14 =
        some (round2 (100 - 100 / (1 + avgGain14 prices / avgLoss14 prices)))) ∧
    (15 ≤ prices.length → prices.Pairwise (· ≤ ·) → calculate_rsi prices 14 = some 100) := by
  refine ⟨?_, ?_, ?_, ?_⟩
  · intro h
    simp only [calculate_rsi]
    rw [if_pos (show prices.length < 14 + 1 by omega)]
  · intro h hz
    rw [calculate_rsi_of_ge prices h, if_pos hz]
  · intro h hz
    rw [calculate_rsi_of_ge prices h, if_neg hz]
  · intro h hmono
    have hall : ∀ x ∈ (deltasOf prices).map (fun d => max (-d) 0), x = 0 := by
      intro x hx
      rcases List.mem_map.mp hx with ⟨d, hd, rfl⟩
      rcases List.mem_map.mp hd with ⟨pq, hpq, rfl⟩
      have hle : pq.1 ≤ pq.2 := zip_drop_one_rel _ hmono pq hpq
      exact max_eq_right (by linarith)
    have hz : avgLoss14 prices = 0 := by
      unfold avgLoss14
      have hsum : (((deltasOf prices).map (fun d => max (-d) 0)).take 14).sum = 0 :=
        List.sum_eq_zero (fun x hx => hall x (List.take_subset _ _ hx))
      rw [hsum, zero_div]
      exact wilder_zero _ (fun x hx => hall x (List.drop_subset _ _ hx))
    rw [calculate_rsi_of_ge prices h, if_pos hz]

/-- C4 witness: fifteen strictly increasing prices give RSI exactly 100. -/
theorem C4_witness : 15 ≤ increasingPrices.length ∧
    increasingPrices.Pairwise (· ≤ ·) ∧
    calculate_rsi increasingPrices 14 = some 100 :=
  ⟨by decide, by decide,
    (C4_rsi increasingPrices).2.2.2 (by decide) (by decide)⟩

/-- C1 counterexample: the claim's lower-median reading fails on the code —
for 1-month changes `[3, -2]` the median `sorted(r)[len(r)//2]` is 3 (the
upper of the two middle elements), not −2; consequently fund A (pct 3) is
NEUTRAL and fund B (pct −2) is OUTFLOW. -/
theorem C1_counterexample :
    flow_median [3, -2] = 3 ∧ ¬ flow_median [3, -2] = -2 ∧
    (compute_flow_proxy [some snapA, some snapB]).map (fun ce => (ce.1, ce.2.signal)) =
      [("A", "NEUTRAL"), ("B", "OUTFLOW")] := by
  refine ⟨by decide, by decide, ?_⟩
  have hne : validFunds [some snapA, some snapB] ≠ [] := by decide
  rw [compute_flow_proxy_of_ne hne]
  have hv : validFunds [some snapA, some snapB] = [snapA, snapB] := by decide
  rw [hv]
  have hm : flow_median ([snapA, snapB].map (fun g => g.pct_1m.getD 0)) = 3 := by decide
  rw [hm]
  norm_num [snapA, snapB, flowEntry_signal]

/-- C1 (amended): the flow-proxy median is `sorted[length/2]` — the exact
middle element for an odd-length list, but the UPPER of the two middle
elements for an even-length list (for `[3, -2]` it is 3, not −2); each
fund's entry is classified INFLOW when `pct_1m − median > 1.5`, OUTFLOW
when `< −1.5`, else NEUTRAL, with the rounded delta recorded. -/
theorem C1_flow_proxy (l : List (Option Snapshot)) (rets s : List ℚ)
    (hrets : rets = (validFunds l).map (fun g => g.pct_1m.getD 0))
    (hs : s = rets.insertionSort (· ≤ ·))
    (hne : validFunds l ≠ []) :
    (∀ k, rets.length = 2 * k + 1 → flow_median rets = s.getD k 0) ∧
    (∀ k, rets.length = 2 * (k + 1) →
      flow_median rets = s.getD (k + 1) 0 ∧ s.getD k 0 ≤ s.getD (k + 1) 0) ∧
    (∀ ce ∈ compute_flow_proxy l, ∃ f ∈ validFunds l, ce.1 = f.fund_code ∧
      ce.2.signal = (if 3/2 < f.pct_1m.getD 0 - flow_median rets then "INFLOW"
        else if f.pct_1m.getD 0 - flow_median rets < -(3/2) then "OUTFLOW"
        else "NEUTRAL") ∧
      ce.2.vs_category = round2 (f.pct_1m.getD 0 - flow_median rets)) := by
  have hsort : s.Pairwise (fun a b : ℚ => a ≤ b) := by
    rw [hs]; exact List.sorted_insertionSort _ _
  have hslen : s.length = rets.length := by
    rw [hs]; exact (List.perm_insertionSort _ _).length_eq
  refine ⟨?_, ?_, ?_⟩
  · intro k hk
    unfold flow_median
    rw [← hs, hk]
    have hdiv : (2 * k + 1) / 2 = k := by omega
    rw [hdiv]
  · intro k hk
    constructor
    · unfold flow_median
      rw [← hs, hk]
      have hdiv : 2 * (k + 1) / 2 = k + 1 := by omega
      rw [hdiv]
    · have hk1 : k < s.length := by rw [hslen, hk]; omega
      have hk2 : k + 1 < s.length := by rw [hslen, hk]; omega
      rw [List.getD_eq_getElem s 0 hk1, List.getD_eq_getElem s 0 hk2]
      exact List.pairwise_iff_getElem.mp hsort k (k + 1) hk1 hk2 (by omega)
  · intro ce hce
    rw [compute_flow_proxy_of_ne hne] at hce
    rcases List.mem_map.mp hce with ⟨f, hf, rfl⟩
    refine ⟨f, hf, rfl, ?_, ?_⟩
    · rw [flowEntry_signal, ← hrets]
    · rw [flowEntry_vs, ← hrets]

/-- C1 witness: the two-fund scenario with 1-month changes 3 and −2; the
even case of the median characterization gives median 3. -/
theorem C1_witness :
    validFunds [some snapA, some snapB] ≠ [] ∧
    flow_median ((validFunds [some snapA, some snapB]).map (fun g => g.pct_1m.getD 0)) = 3 := by
  refine ⟨by decide, ?_⟩
  have h := (C1_flow_proxy [some snapA, some snapB] _ _ rfl rfl (by decide)).2.1 0 (by decide)
  rw [h.1]
  decide

/-- C9 counterexample: a dashboard record with RSI exactly 0 satisfies
`rsi_14 ≤ 35` yet is NOT in `oversold_funds` — Python's truthiness guard
`f.get("rsi_14") and ...` drops a zero RSI; and RSI 0 is reachable, e.g.
from fifteen strictly decreasing prices. -/
theorem C9_counterexample :
    dashZ.rsi_14 = some 0 ∧ (0 : ℚ) ≤ 35 ∧ oversold_funds [dashZ] = [] ∧
    calculate_rsi decreasingPrices 14 = some 0 := by
  refine ⟨rfl, by decide, by decide, ?_⟩
  have h15 : 15 ≤ decreasingPrices.length := by decide
  rw [calculate_rsi_of_ge decreasingPrices h15]
  have hds : deltasOf decreasingPrices = List.replicate 14 (-1) := by
    norm_num [deltasOf, decreasingPrices, List.replicate]
  have hg : avgGain14 decreasingPrices = 0 := by
    have hall : ∀ x ∈ (deltasOf decreasingPrices).map (fun d => max d 0), x = 0 := by
      rw [hds]
      intro x hx
      rcases List.mem_map.mp hx with ⟨d, hd, rfl⟩
      rw [List.eq_of_mem_replicate hd]
      exact max_eq_right (by norm_num)
    unfold avgGain14
    have hsum : (((deltasOf decreasingPrices).map (fun d => max d 0)).take 14).sum = 0 :=
      List.sum_eq_zero (fun x hx => hall x (List.take_subset _ _ hx))
    rw [hsum, zero_div]
    exact wilder_zero _ (fun x hx => hall x (List.drop_subset _ _ hx))
  have hl : avgLoss14 decreasingPrices = 1 := by
    have hmax : max (-(-1) : ℚ) 0 = 1 := by norm_num
    unfold avgLoss14
    rw [hds, List.map_replicate, hmax, List.take_replicate, List.drop_replicate]
    norm_num [wilder, List.sum_replicate]
  rw [hg, hl]
  norm_num [round2, roundq]
  decide

/-- C9 (amended): `oversold_funds` contains exactly those records whose
`rsi_14` is present, nonzero (truthy), and at most 35; a record with RSI
exactly 0 is excluded by the truthiness guard. -/
theorem C9_oversold (funds : List DashFund) (f : DashFund) :
    f ∈ oversold_funds funds ↔
      f ∈ funds ∧ ∃ r, f.rsi_14 = some r ∧ r ≠ 0 ∧ r ≤ 35 := by
  unfold oversold_funds
  rw [List.mem_filter]
  refine and_congr_right (fun _ => ?_)
  cases h : f.rsi_14 with
  | none => simp [h]
  | some r => simp [h]

/-- C10: a fund that has an indicator snapshot but no `pct_1m` (and is
therefore absent from the flow-proxy keys) receives `flow_signal = "N/A"`
— a fourth value outside {INFLOW, OUTFLOW, NEUTRAL} — an empty `flow_note`
and an absent `flow_vs_category`, for any rankings. -/
theorem C10_absent_pct1m (snaps : List (Option Snapshot))
    (rankings : List (String × ℕ × ℚ)) (f : Snapshot)
    (hf : some f ∈ snaps) (hm : f.pct_1m = none)
    (hcodes : (snaps.filterMap id).Pairwise (fun a b => a.fund_code ≠ b.fund_code)) :
    (mkDashFund (compute_flow_proxy snaps) rankings f).flow_signal = "N/A" ∧
    (mkDashFund (compute_flow_proxy snaps) rankings f).flow_note = "" ∧
    (mkDashFund (compute_flow_proxy snaps) rankings f).flow_vs_category = none ∧
    (mkDashFund (compute_flow_proxy snaps) rankings f).flow_signal ≠ "INFLOW" ∧
    (mkDashFund (compute_flow_proxy snaps) rankings f).flow_signal ≠ "OUTFLOW" ∧
    (mkDashFund (compute_flow_proxy snaps) rankings f).flow_signal ≠ "NEUTRAL" := by
  have hnone : (compute_flow_proxy snaps).lookup f.fund_code = none := by
    apply lookup_eq_none_of_keys
    intro p hp hc
    have hkey : p.1 ∈ (compute_flow_proxy snaps).map Prod.fst :=
      List.mem_map_of_mem Prod.fst hp
    rw [flow_proxy_keys] at hkey
    rcases List.mem_map.mp hkey with ⟨g, hg, hcode⟩
    have hgmem : g ∈ snaps.filterMap id := (List.mem_filter.mp hg).1
    have hgsome : g.pct_1m.isSome = true := by
      simpa using (List.mem_filter.mp hg).2
    have hfmem : f ∈ snaps.filterMap id := List.mem_filterMap.mpr ⟨some f, hf, rfl⟩
    have hne : g ≠ f := by
      intro he
      rw [he, hm] at hgsome
      simp at hgsome
    have hsymm : Symmetric (fun a b : Snapshot => a.fund_code ≠ b.fund_code) :=
      fun _ _ hab => Ne.symm hab
    exact absurd (hcode.trans hc) (hcodes.forall hsymm hgmem hfmem hne)
  refine ⟨?_, ?_, ?_, ?_, ?_, ?_⟩ <;> simp [mkDashFund, hnone]

/-- C10 witness: the single-fund universe `[snapX]`, whose `pct_1m` is
absent, with empty rankings. -/
theorem C10_witness :
    some snapX ∈ [some snapX] ∧ snapX.pct_1m = none ∧
    (([some snapX] : List (Option Snapshot)).filterMap id).Pairwise
      (fun a b => a.fund_code ≠ b.fund_code) ∧
    (mkDashFund (compute_flow_proxy [some snapX]) [] snapX).flow_signal = "N/A" ∧
    (mkDashFund (compute_flow_proxy [some snapX]) [] snapX).flow_note = "" ∧
    (mkDashFund (compute_flow_proxy [some snapX]) [] snapX).flow_vs_category = none := by
  have h := C10_absent_pct1m [some snapX] [] snapX (by decide) rfl (by decide)
  exact ⟨by decide, rfl, by decide, h.1, h.2.1, h.2.2.1⟩

end Scraper
